import Mathlib

/-!
Verification of the mdb/accdb-to-sqlite converter and its equivalence
verifier.  Python strings are embedded as lists of characters; the
Python operations used by the code (upper, lower, substring membership,
startswith, strip) are transcribed below, and each relevant function of
the repository is transcribed as an executable Lean definition.
-/

/-! ### Python string primitives -/

/-- Embedding of Python str.upper for the ASCII labels handled here. -/
def pyUpper (s : List Char) : List Char := s.map Char.toUpper

/-- Embedding of Python str.lower for the ASCII names handled here. -/
def pyLower (s : List Char) : List Char := s.map Char.toLower

/-- Matching of a needle against the head of a haystack, the recursion
behind substring search and Python str.startswith. -/
def tokAt : List Char → List Char → Bool
  | [], _ => true
  | _ :: _, [] => false
  | t :: ts, h :: hs => t == h && tokAt ts hs

/-- Embedding of the Python substring test: strContains hay needle is
needle in hay. -/
def strContains : List Char → List Char → Bool
  | [], needle => needle.isEmpty
  | h :: hs, needle => tokAt needle (h :: hs) || strContains hs needle

/-- Containment of any of a list of tokens, as in the generator
expressions any(t in access_type for t in [...]) of map_type. -/
def containsAny (hay : List Char) (toks : List (List Char)) : Bool :=
  toks.any (fun t => strContains hay t)

/-- Embedding of Python str.strip (both-ends whitespace removal). -/
def pyStrip (s : List Char) : List Char :=
  ((s.dropWhile Char.isWhitespace).reverse.dropWhile Char.isWhitespace).reverse

/-! ### Facts about the string primitives -/

theorem char_toNat_ofNat_valid (n : Nat) (h : n.isValidChar) :
    (Char.ofNat n).toNat = n := by
  rw [Char.ofNat, dif_pos h]
  rfl

theorem char_toUpper_toUpper (c : Char) : c.toUpper.toUpper = c.toUpper := by
  simp only [Char.toUpper]
  by_cases h : c.toNat ≥ 97 ∧ c.toNat ≤ 122
  · rw [if_pos h]
    have hv : Nat.isValidChar (c.toNat - 32) := by
      left
      omega
    have ht : (Char.ofNat (c.toNat - 32)).toNat = c.toNat - 32 :=
      char_toNat_ofNat_valid _ hv
    rw [if_neg]
    rw [ht]
    omega
  · rw [if_neg h, if_neg h]

theorem pyUpper_idem (s : List Char) : pyUpper (pyUpper s) = pyUpper s := by
  induction s with
  | nil => rfl
  | cons c cs ih =>
      simp only [pyUpper, List.map_cons] at *
      rw [char_toUpper_toUpper]
      exact congrArg _ ih

theorem tokAt_append_self (t r : List Char) : tokAt t (t ++ r) = true := by
  induction t with
  | nil => rfl
  | cons c cs ih => simp [tokAt, ih]

theorem tokAt_extend (t a b : List Char) (h : tokAt t a = true) :
    tokAt t (a ++ b) = true := by
  induction t generalizing a with
  | nil => rfl
  | cons c cs ih =>
      cases a with
      | nil => simp [tokAt] at h
      | cons x xs =>
          simp only [tokAt, Bool.and_eq_true, beq_iff_eq] at h ⊢
          exact ⟨h.1, ih xs h.2⟩

theorem tokAt_cut (t a b : List Char) (c : Char) (hc : c ∉ t)
    (h : tokAt t (a ++ c :: b) = true) : tokAt t a = true := by
  induction t generalizing a with
  | nil => rfl
  | cons x xs ih =>
      cases a with
      | nil =>
          simp only [List.nil_append, tokAt, Bool.and_eq_true, beq_iff_eq] at h
          exact absurd (h.1 ▸ List.mem_cons_self x xs) hc
      | cons y ys =>
          simp only [List.cons_append, tokAt, Bool.and_eq_true, beq_iff_eq] at h ⊢
          exact ⟨h.1, ih ys (fun hm => hc (List.mem_cons_of_mem x hm)) h.2⟩

theorem strContains_cons_of_notMem (c : Char) (l t : List Char) (hc : c ∉ t)
    (ht : t ≠ []) : strContains (c :: l) t = strContains l t := by
  cases t with
  | nil => exact absurd rfl ht
  | cons x xs =>
      have hx : (x == c) = false := by
        simp only [beq_eq_false_iff_ne, ne_eq]
        intro hxc
        exact hc (hxc ▸ List.mem_cons_self x xs)
      simp [strContains, tokAt, hx]

theorem strContains_of_tokAt (hay t : List Char) (h : ∃ a b, hay = a ++ t ++ b) :
    strContains hay t = true := by
  obtain ⟨a, b, rfl⟩ := h
  induction a with
  | nil =>
      cases t with
      | nil => cases b <;> simp [strContains, tokAt]
      | cons x xs =>
          simp only [List.nil_append, List.cons_append, strContains, Bool.or_eq_true]
          left
          exact tokAt_append_self (x :: xs) b
  | cons y ys ih =>
      simp only [List.cons_append, strContains, Bool.or_eq_true]
      right
      exact ih

theorem strContains_append_cut (a b t : List Char) (c : Char) (hc : c ∉ t)
    (ht : t ≠ []) :
    strContains (a ++ c :: b) t = (strContains a t || strContains b t) := by
  induction a with
  | nil =>
      rw [List.nil_append, strContains_cons_of_notMem c b t hc ht]
      cases t with
      | nil => exact absurd rfl ht
      | cons x xs => simp [strContains]
  | cons y ys ih =>
      simp only [List.cons_append, strContains, ih, Bool.or_assoc]
      congr 1
      cases t with
      | nil => exact absurd rfl ht
      | cons x xs =>
          by_cases hxy : (x == y) = true
          · simp only [tokAt, hxy, Bool.true_and]
            apply Bool.eq_iff_iff.mpr
            constructor
            · intro hmatch
              exact tokAt_cut xs ys b c (fun hm => hc (List.mem_cons_of_mem x hm)) hmatch
            · intro hmatch
              exact tokAt_extend xs ys (c :: b) hmatch
          · simp only [tokAt, Bool.eq_false_iff.mpr hxy, Bool.false_and]

/-! ### The type mapper, from map_type in access_to_sqlite.py -/

def textTokens : List (List Char) :=
  ["CHAR".data, "TEXT".data, "MEMO".data, "STRING".data]

def intTokens : List (List Char) :=
  ["INT".data, "LONG".data, "BYTE".data, "COUNTER".data]

def realTokens : List (List Char) :=
  ["DOUBLE".data, "FLOAT".data, "SINGLE".data]

def datetimeTokens : List (List Char) := ["DATETIME".data]

def currencyTokens : List (List Char) := ["CURRENCY".data]

def bitTokens : List (List Char) := ["BIT".data]

def blobTokens : List (List Char) := ["OLE".data, "BINARY".data]

/-- Transcription of map_type: uppercase the label, then test token
containment in the source's fixed order, defaulting to TEXT. -/
def map_type (access_type : List Char) : List Char :=
  let u := pyUpper access_type
  if containsAny u textTokens then "TEXT".data
  else if containsAny u intTokens then "INTEGER".data
  else if containsAny u realTokens then "REAL".data
  else if containsAny u datetimeTokens then "DATETIME".data
  else if containsAny u currencyTokens then "NUMERIC".data
  else if containsAny u bitTokens then "INTEGER".data
  else if containsAny u blobTokens then "BLOB".data
  else "TEXT".data

/-- The token classes of the mapper together with their target types,
in the source's precedence order. -/
def tokenClasses : List (List (List Char) × List Char) :=
  [(textTokens, "TEXT".data), (intTokens, "INTEGER".data),
   (realTokens, "REAL".data), (datetimeTokens, "DATETIME".data),
   (currencyTokens, "NUMERIC".data), (bitTokens, "INTEGER".data),
   (blobTokens, "BLOB".data)]

theorem map_type_case_insensitive (s : List Char) :
    map_type (pyUpper s) = map_type s := by
  simp only [map_type, pyUpper_idem]

/-- Claim C6: the type mapper is total and deterministic: every label
maps to one of the six target types with no error; the result is
independent of the label's casing; a label containing tokens of exactly
one recognized class maps to that class's target type; a label with no
recognized token maps to TEXT. -/
theorem c6_map_type_total_deterministic (s : List Char) :
    map_type s ∈ ["TEXT".data, "INTEGER".data, "REAL".data,
                  "DATETIME".data, "NUMERIC".data, "BLOB".data]
    ∧ map_type (pyUpper s) = map_type s
    ∧ (∀ cls ∈ tokenClasses, containsAny (pyUpper s) cls.1 = true →
        (∀ cls2 ∈ tokenClasses, cls2 ≠ cls → containsAny (pyUpper s) cls2.1 = false) →
        map_type s = cls.2)
    ∧ ((∀ cls ∈ tokenClasses, containsAny (pyUpper s) cls.1 = false) →
        map_type s = "TEXT".data) := by
  refine ⟨?_, map_type_case_insensitive s, ?_, ?_⟩
  · simp only [map_type]
    split
    · simp
    · split
      · simp
      · split
        · simp
        · split
          · simp
          · split
            · simp
            · split
              · simp
              · split
                · simp
                · simp
  · intro cls hmem h1 h2
    fin_cases hmem
    all_goals simp only at h1 ⊢
    · simp only [map_type, h1, if_true]
    · have ht := h2 (textTokens, "TEXT".data) (by simp [tokenClasses]) (by decide)
      simp only at ht
      simp only [map_type, h1, ht, Bool.false_eq_true, if_false, if_true]
    · have ht := h2 (textTokens, "TEXT".data) (by simp [tokenClasses]) (by decide)
      have hi := h2 (intTokens, "INTEGER".data) (by simp [tokenClasses]) (by decide)
      simp only at ht hi
      simp only [map_type, h1, ht, hi, Bool.false_eq_true, if_false, if_true]
    · have ht := h2 (textTokens, "TEXT".data) (by simp [tokenClasses]) (by decide)
      have hi := h2 (intTokens, "INTEGER".data) (by simp [tokenClasses]) (by decide)
      have hr := h2 (realTokens, "REAL".data) (by simp [tokenClasses]) (by decide)
      simp only at ht hi hr
      simp only [map_type, h1, ht, hi, hr, Bool.false_eq_true, if_false, if_true]
    · have ht := h2 (textTokens, "TEXT".data) (by simp [tokenClasses]) (by decide)
      have hi := h2 (intTokens, "INTEGER".data) (by simp [tokenClasses]) (by decide)
      have hr := h2 (realTokens, "REAL".data) (by simp [tokenClasses]) (by decide)
      have hd := h2 (datetimeTokens, "DATETIME".data) (by simp [tokenClasses]) (by decide)
      simp only at ht hi hr hd
      simp only [map_type, h1, ht, hi, hr, hd, Bool.false_eq_true, if_false, if_true]
    · have ht := h2 (textTokens, "TEXT".data) (by simp [tokenClasses]) (by decide)
      have hi := h2 (intTokens, "INTEGER".data) (by simp [tokenClasses]) (by decide)
      have hr := h2 (realTokens, "REAL".data) (by simp [tokenClasses]) (by decide)
      have hd := h2 (datetimeTokens, "DATETIME".data) (by simp [tokenClasses]) (by decide)
      have hcu := h2 (currencyTokens, "NUMERIC".data) (by simp [tokenClasses]) (by decide)
      simp only at ht hi hr hd hcu
      simp only [map_type, h1, ht, hi, hr, hd, hcu, Bool.false_eq_true, if_false, if_true]
    · have ht := h2 (textTokens, "TEXT".data) (by simp [tokenClasses]) (by decide)
      have hi := h2 (intTokens, "INTEGER".data) (by simp [tokenClasses]) (by decide)
      have hr := h2 (realTokens, "REAL".data) (by simp [tokenClasses]) (by decide)
      have hd := h2 (datetimeTokens, "DATETIME".data) (by simp [tokenClasses]) (by decide)
      have hcu := h2 (currencyTokens, "NUMERIC".data) (by simp [tokenClasses]) (by decide)
      have hb := h2 (bitTokens, "INTEGER".data) (by simp [tokenClasses]) (by decide)
      simp only at ht hi hr hd hcu hb
      simp only [map_type, h1, ht, hi, hr, hd, hcu, hb, Bool.false_eq_true, if_false,
        if_true]
  · intro hall
    have ht := hall (textTokens, "TEXT".data) (by simp [tokenClasses])
    have hi := hall (intTokens, "INTEGER".data) (by simp [tokenClasses])
    have hr := hall (realTokens, "REAL".data) (by simp [tokenClasses])
    have hd := hall (datetimeTokens, "DATETIME".data) (by simp [tokenClasses])
    have hcu := hall (currencyTokens, "NUMERIC".data) (by simp [tokenClasses])
    have hb := hall (bitTokens, "INTEGER".data) (by simp [tokenClasses])
    have ho := hall (blobTokens, "BLOB".data) (by simp [tokenClasses])
    simp only at ht hi hr hd hcu hb ho
    simp only [map_type, ht, hi, hr, hd, hcu, hb, ho, Bool.false_eq_true, if_false]

/-- Witness for C6: the mixed-case label Varchar contains the CHAR token
and no token of any other class, so the mapper sends it to TEXT. -/
theorem c6_witness : map_type ("Varchar".data) = "TEXT".data :=
  (c6_map_type_total_deterministic ("Varchar".data)).2.2.1
    (textTokens, "TEXT".data) (by decide) (by decide) (by decide)

/-! ### The equivalence verifier, from compare_sqlite_dbs.py -/

/-- One column of PRAGMA table_info, as in the ColumnInfo namedtuple. -/
structure ColumnInfo where
  name : List Char
  type : List Char
  notnull : Nat
  default_value : Option (List Char)
  pk : Nat
deriving DecidableEq

/-- One table of a database: its name, its columns in PRAGMA order, and
its SELECT COUNT row count, the three facts the verifier reads. -/
structure DbTable where
  name : List Char
  cols : List ColumnInfo
  rows : Nat
deriving DecidableEq

/-- The key set of the dict from lowered name to original name. -/
def lowerNames (db : List DbTable) : List (List Char) :=
  (db.map (fun t => pyLower t.name)).dedup

/-- Lookup through map1/map2 composed with the schema dict: the last
table whose lowered name matches, matching dict overwrite order. -/
def findTable (db : List DbTable) (ln : List Char) : Option DbTable :=
  db.reverse.find? (fun t => pyLower t.name == ln)

/-- Phase 1 set difference: reference tables absent from the candidate. -/
def missingTables (db1 db2 : List DbTable) : List (List Char) :=
  (lowerNames db1).filter (fun n => !((lowerNames db2).contains n))

/-- Phase 1 set difference: candidate tables absent from the reference. -/
def extraTables (db1 db2 : List DbTable) : List (List Char) :=
  (lowerNames db2).filter (fun n => !((lowerNames db1).contains n))

/-- The lowered names common to both databases, the scope of phases 2
and 3. -/
def commonTables (db1 db2 : List DbTable) : List (List Char) :=
  (lowerNames db1).filter (fun n => (lowerNames db2).contains n)

/-- The key set of the per-table dict from lowered column name to
original column name. -/
def colLowerNames (cols : List ColumnInfo) : List (List Char) :=
  (cols.map (fun c => pyLower c.name)).dedup

/-- Column lookup through col_map composed with the columns dict. -/
def findCol (cols : List ColumnInfo) (ln : List Char) : Option ColumnInfo :=
  cols.reverse.find? (fun c => pyLower c.name == ln)

/-- The per-column comparison of the verifier: lowered name, lowered
declared type, notnull flag and pk flag must all agree. -/
def columnsMismatch (c1 c2 : ColumnInfo) : Bool :=
  !(pyLower c1.name == pyLower c2.name && pyLower c1.type == pyLower c2.type
    && c1.notnull == c2.notnull && c1.pk == c2.pk)

/-- Reference columns absent from the candidate table. -/
def missingCols (cols1 cols2 : List ColumnInfo) : List (List Char) :=
  (colLowerNames cols1).filter (fun n => !((colLowerNames cols2).contains n))

/-- Candidate columns absent from the reference table. -/
def addedCols (cols1 cols2 : List ColumnInfo) : List (List Char) :=
  (colLowerNames cols2).filter (fun n => !((colLowerNames cols1).contains n))

/-- Fatal errors contributed by one common table in phase 2: when the
two column-name sets coincide, one error per mismatching column;
otherwise one error when reference columns are missing, none when the
candidate merely has extra columns. -/
def tableSchemaErrors (cols1 cols2 : List ColumnInfo) : Nat :=
  if missingCols cols1 cols2 = [] ∧ addedCols cols1 cols2 = [] then
    (colLowerNames cols1).countP (fun lc =>
      match findCol cols1 lc, findCol cols2 lc with
      | some c1, some c2 => columnsMismatch c1 c2
      | _, _ => false)
  else if missingCols cols1 cols2 = [] then 0 else 1

/-- Warnings contributed by one common table in phase 2: one when the
candidate has extra columns and the column sets differ. -/
def tableSchemaWarnings (cols1 cols2 : List ColumnInfo) : Nat :=
  if missingCols cols1 cols2 = [] ∧ addedCols cols1 cols2 = [] then 0
  else if addedCols cols1 cols2 = [] then 0 else 1

/-- Phase 2 contribution of one common lowered table name. -/
def tableErrAt (db1 db2 : List DbTable) (ln : List Char) : Nat :=
  match findTable db1 ln, findTable db2 ln with
  | some t1, some t2 => tableSchemaErrors t1.cols t2.cols
  | _, _ => 0

/-- Phase 2 warning contribution of one common lowered table name. -/
def tableWarnAt (db1 db2 : List DbTable) (ln : List Char) : Nat :=
  match findTable db1 ln, findTable db2 ln with
  | some t1, some t2 => tableSchemaWarnings t1.cols t2.cols
  | _, _ => 0

/-- Phase 3 contribution of one common lowered table name: one fatal
error when the two row counts differ. -/
def rowcountErrAt (db1 db2 : List DbTable) (ln : List Char) : Nat :=
  match findTable db1 ln, findTable db2 ln with
  | some t1, some t2 => if t1.rows == t2.rows then 0 else 1
  | _, _ => 0

/-- Fatal errors of phase 1, incremented once when tables are missing. -/
def phase1Errors (db1 db2 : List DbTable) : Nat :=
  if missingTables db1 db2 = [] then 0 else 1

/-- Fatal errors of phase 2, summed over the common tables. -/
def phase2Errors (db1 db2 : List DbTable) : Nat :=
  (commonTables db1 db2).foldl (fun acc ln => acc + tableErrAt db1 db2 ln) 0

/-- Fatal errors of phase 3, summed over the common tables. -/
def phase3Errors (db1 db2 : List DbTable) : Nat :=
  (commonTables db1 db2).foldl (fun acc ln => acc + rowcountErrAt db1 db2 ln) 0

/-- The verdict and tallies printed by the verifier. -/
structure CompareResult where
  errors : Nat
  warnings : Nat
  success : Bool
deriving DecidableEq

/-- Transcription of compare_databases: errors_found is accumulated
through the three phases in program order and the summary prints
SUCCESS exactly when it is zero; extra tables and extra columns only
feed the warning tally. -/
def compare_databases (db1 db2 : List DbTable) : CompareResult :=
  let e1 := if missingTables db1 db2 = [] then 0 else 1
  let w1 := if extraTables db1 db2 = [] then 0 else 1
  let e2 := (commonTables db1 db2).foldl (fun acc ln => acc + tableErrAt db1 db2 ln) e1
  let w2 := (commonTables db1 db2).foldl (fun acc ln => acc + tableWarnAt db1 db2 ln) w1
  let e3 := (commonTables db1 db2).foldl (fun acc ln => acc + rowcountErrAt db1 db2 ln) e2
  ⟨e3, w2, e3 == 0⟩

theorem foldl_add_init {α : Type} (f : α → Nat) (l : List α) (i : Nat) :
    l.foldl (fun acc x => acc + f x) i = i + l.foldl (fun acc x => acc + f x) 0 := by
  induction l generalizing i with
  | nil => simp
  | cons a as ih =>
      simp only [List.foldl_cons]
      rw [ih (i + f a), ih (0 + f a)]
      omega

theorem compare_databases_errors (db1 db2 : List DbTable) :
    (compare_databases db1 db2).errors =
      phase1Errors db1 db2 + phase2Errors db1 db2 + phase3Errors db1 db2 := by
  simp only [compare_databases, phase1Errors, phase2Errors, phase3Errors]
  rw [foldl_add_init (tableErrAt db1 db2), foldl_add_init (rowcountErrAt db1 db2)]

/-- Claim C1: the printed verdict is SUCCESS exactly when the fatal
errors accumulated over table-set, schema and row-count comparison add
up to zero; the warning tally has no part in the verdict. -/
theorem c1_success_iff_zero_fatal_tally (db1 db2 : List DbTable) :
    (compare_databases db1 db2).success = true ↔
      phase1Errors db1 db2 + phase2Errors db1 db2 + phase3Errors db1 db2 = 0 := by
  have hs : (compare_databases db1 db2).success =
      ((compare_databases db1 db2).errors == 0) := rfl
  rw [hs, compare_databases_errors]
  exact beq_iff_eq

/-- Reference database for the C3 witness: one table. -/
def c3DbA : List DbTable := [⟨"t1".data, [], 0⟩]

/-- Candidate database for the C3 witness: the same table under other
casing plus one extra table. -/
def c3DbB : List DbTable := [⟨"T1".data, [], 0⟩, ⟨"extra".data, [], 0⟩]

/-- Claim C3: the table-set comparison is directional: when every
reference table occurs in the candidate and the candidate has an extra
table, the forward comparison yields no phase 1 fatal error, only a
warning, while the reversed comparison yields one fatal error. -/
theorem c3_table_set_comparison_directional (db1 db2 : List DbTable)
    (lt : List Char)
    (hsub : ∀ n ∈ lowerNames db1, n ∈ lowerNames db2)
    (hextra : lt ∈ lowerNames db2) (hnew : lt ∉ lowerNames db1) :
    phase1Errors db1 db2 = 0 ∧ extraTables db1 db2 ≠ [] ∧
      phase1Errors db2 db1 = 1 := by
  have hmiss : missingTables db1 db2 = [] := by
    simp only [missingTables]
    rw [List.filter_eq_nil_iff]
    intro n hn
    simp only [Bool.not_eq_true, Bool.not_eq_false']
    exact List.elem_iff.mpr (hsub n hn)
  refine ⟨by simp [phase1Errors, hmiss], ?_, ?_⟩
  · have hmem : lt ∈ extraTables db1 db2 := by
      simp only [extraTables, List.mem_filter]
      exact ⟨hextra, by simp [List.elem_iff, hnew]⟩
    exact List.ne_nil_of_mem hmem
  · have hmem : lt ∈ missingTables db2 db1 := by
      simp only [missingTables, List.mem_filter]
      exact ⟨hextra, by simp [List.elem_iff, hnew]⟩
    simp [phase1Errors, List.ne_nil_of_mem hmem]

/-- Witness for C3 at a concrete pair of databases differing by one
extra candidate table. -/
theorem c3_witness :
    phase1Errors c3DbA c3DbB = 0 ∧ extraTables c3DbA c3DbB ≠ [] ∧
      phase1Errors c3DbB c3DbA = 1 :=
  c3_table_set_comparison_directional c3DbA c3DbB ("extra".data)
    (by decide) (by decide) (by decide)

/-- Reference column list for the C2 counterexample. -/
def c2RefCols : List ColumnInfo := [⟨"a".data, "INTEGER".data, 0, none, 0⟩]

/-- Candidate column list for the C2 counterexample: the same column
with another declared type plus an extra column. -/
def c2CandCols : List ColumnInfo :=
  [⟨"a".data, "TEXT".data, 0, none, 0⟩, ⟨"b".data, "TEXT".data, 0, none, 0⟩]

/-- Reference database wrapping the C2 counterexample columns. -/
def c2RefDb : List DbTable := [⟨"t".data, c2RefCols, 1⟩]

/-- Candidate database wrapping the C2 counterexample columns. -/
def c2CandDb : List DbTable := [⟨"t".data, c2CandCols, 1⟩]

/-- Counterexample to claim C2: the common column a differs in declared
type, yet with an extra candidate column present the verifier reports
no fatal error at all for the table, and the whole comparison even
succeeds. -/
theorem c2_counterexample :
    columnsMismatch ⟨"a".data, "INTEGER".data, 0, none, 0⟩
        ⟨"a".data, "TEXT".data, 0, none, 0⟩ = true
    ∧ tableSchemaErrors c2RefCols c2CandCols = 0
    ∧ (compare_databases c2RefDb c2CandDb).success = true := by decide

/-- Claim C2 as amended: the per-column schema check runs only when the
two lowered column-name sets coincide, in which case each mismatching
common column is one fatal error; when the candidate has extra columns
and no reference column is missing, the per-column check is skipped and
the table contributes no fatal error; when any reference column is
missing, the per-column check is likewise skipped and the table
contributes exactly one fatal error, mismatches going unreported. -/
theorem c2_per_column_check_only_on_equal_sets (cols1 cols2 : List ColumnInfo) :
    ((∀ n, n ∈ colLowerNames cols1 ↔ n ∈ colLowerNames cols2) →
      tableSchemaErrors cols1 cols2 =
        (colLowerNames cols1).countP (fun lc =>
          match findCol cols1 lc, findCol cols2 lc with
          | some c1, some c2 => columnsMismatch c1 c2
          | _, _ => false))
    ∧ ((∀ n ∈ colLowerNames cols1, n ∈ colLowerNames cols2) →
        (∃ n ∈ colLowerNames cols2, n ∉ colLowerNames cols1) →
        tableSchemaErrors cols1 cols2 = 0)
    ∧ ((∃ n ∈ colLowerNames cols1, n ∉ colLowerNames cols2) →
        tableSchemaErrors cols1 cols2 = 1) := by
  refine ⟨?_, ?_, ?_⟩
  · intro hiff
    have hm : missingCols cols1 cols2 = [] := by
      simp only [missingCols]
      rw [List.filter_eq_nil_iff]
      intro n hn
      simp only [Bool.not_eq_true, Bool.not_eq_false']
      exact List.elem_iff.mpr ((hiff n).mp hn)
    have ha : addedCols cols1 cols2 = [] := by
      simp only [addedCols]
      rw [List.filter_eq_nil_iff]
      intro n hn
      simp only [Bool.not_eq_true, Bool.not_eq_false']
      exact List.elem_iff.mpr ((hiff n).mpr hn)
    simp only [tableSchemaErrors]
    rw [if_pos (And.intro hm ha)]
  · intro hsub hex
    have hm : missingCols cols1 cols2 = [] := by
      simp only [missingCols]
      rw [List.filter_eq_nil_iff]
      intro n hn
      simp only [Bool.not_eq_true, Bool.not_eq_false']
      exact List.elem_iff.mpr (hsub n hn)
    obtain ⟨n, hn2, hn1⟩ := hex
    have hmem : n ∈ addedCols cols1 cols2 := by
      simp only [addedCols, List.mem_filter]
      exact ⟨hn2, by simp [List.elem_iff, hn1]⟩
    have ha : addedCols cols1 cols2 ≠ [] := List.ne_nil_of_mem hmem
    simp only [tableSchemaErrors]
    rw [if_neg (fun hand => ha hand.2), if_pos hm]
  · intro hex
    obtain ⟨n, hn1, hn2⟩ := hex
    have hmem : n ∈ missingCols cols1 cols2 := by
      simp only [missingCols, List.mem_filter]
      exact ⟨hn1, by simp [List.elem_iff, hn2]⟩
    have hm : missingCols cols1 cols2 ≠ [] := List.ne_nil_of_mem hmem
    simp only [tableSchemaErrors]
    rw [if_neg (fun hand => hm hand.1), if_neg hm]

/-- Witness for the amended C2 at concrete tables: a table against
itself has coinciding column-name sets and no fatal error, and a
reference with a column the candidate lacks gets exactly one fatal
error. -/
theorem c2_witness :
    tableSchemaErrors c2RefCols c2RefCols = 0
    ∧ tableSchemaErrors c2CandCols c2RefCols = 1 := by
  constructor
  · have h := (c2_per_column_check_only_on_equal_sets c2RefCols c2RefCols).1
      (fun n => Iff.rfl)
    rw [h]
    decide
  · exact (c2_per_column_check_only_on_equal_sets c2CandCols c2RefCols).2.2
      ⟨"b".data, by decide, by decide⟩

/-- The row count the verifier reads for a lowered table name. -/
def rowCountOf (db : List DbTable) (ln : List Char) : Option Nat :=
  (findTable db ln).map (fun t => t.rows)

theorem findTable_exists_of_mem (db : List DbTable) (ln : List Char)
    (h : ln ∈ lowerNames db) : ∃ t, findTable db ln = some t := by
  simp only [lowerNames, List.mem_dedup, List.mem_map] at h
  obtain ⟨t, ht, hlt⟩ := h
  have hex : ∃ x ∈ db.reverse, (pyLower x.name == ln) = true :=
    ⟨t, List.mem_reverse.mpr ht, by simp [hlt]⟩
  exact Option.isSome_iff_exists.mp (List.find?_isSome.mpr hex)

theorem foldl_add_eq_zero_iff {α : Type} (f : α → Nat) (l : List α) :
    l.foldl (fun acc x => acc + f x) 0 = 0 ↔ ∀ x ∈ l, f x = 0 := by
  induction l with
  | nil => simp
  | cons a as ih =>
      simp only [List.foldl_cons, Nat.zero_add]
      rw [foldl_add_init]
      constructor
      · intro h x hx
        rcases List.mem_cons.mp hx with hxa | hxs
        · rw [hxa]
          omega
        · exact ih.mp (by omega) x hxs
      · intro h
        rw [ih.mpr (fun x hx => h x (List.mem_cons_of_mem a hx))]
        have ha := h a (List.mem_cons_self a as)
        omega

/-- Columns of the Employees scenario table. -/
def empCols : List ColumnInfo :=
  [⟨"EmployeeID".data, "INTEGER".data, 1, none, 1⟩,
   ⟨"Name".data, "TEXT".data, 0, none, 0⟩]

/-- Reference database of the C8 scenario: Employees with 5 rows. -/
def empRefDb : List DbTable := [⟨"Employees".data, empCols, 5⟩]

/-- Candidate database of the C8 scenario: Employees with 4 rows. -/
def empCandDb : List DbTable := [⟨"Employees".data, empCols, 4⟩]

/-- Claim C8: the row-count comparison ranges over the common tables
only and is fatal-free exactly when every common table has equal counts
on both sides; in the Employees 5-versus-4 scenario the verdict is
FAILURE with exactly one fatal error, which is the row-count error,
and no schema error. -/
theorem c8_rowcount_restricted_to_common_tables :
    (∀ db1 db2 : List DbTable, phase3Errors db1 db2 = 0 ↔
      ∀ ln ∈ commonTables db1 db2, rowCountOf db1 ln = rowCountOf db2 ln)
    ∧ (compare_databases empRefDb empCandDb).success = false
    ∧ (compare_databases empRefDb empCandDb).errors = 1
    ∧ phase2Errors empRefDb empCandDb = 0
    ∧ phase3Errors empRefDb empCandDb = 1 := by
  refine ⟨?_, by decide, by decide, by decide, by decide⟩
  intro db1 db2
  simp only [phase3Errors]
  rw [foldl_add_eq_zero_iff]
  refine forall₂_congr (fun ln hln => ?_)
  have hmem := List.mem_filter.mp hln
  obtain ⟨t1, ht1⟩ := findTable_exists_of_mem db1 ln hmem.1
  obtain ⟨t2, ht2⟩ := findTable_exists_of_mem db2 ln (List.elem_iff.mp hmem.2)
  simp only [rowcountErrAt, rowCountOf, ht1, ht2, Option.map_some']
  by_cases h : t1.rows = t2.rows
  · simp [h]
  · simp [h, beq_iff_eq]

/-- Witness for C8: a database compared against itself has no phase 3
fatal error. -/
theorem c8_witness : phase3Errors empRefDb empRefDb = 0 :=
  (c8_rowcount_restricted_to_common_tables.1 empRefDb empRefDb).mpr (by decide)

/-! ### The conservative transfer path, from convert_access_to_sqlite -/

/-- Outcome of the single INSERT of one CSV row: success, the
sqlite3.InterfaceError the loop catches, or any other exception such as
the IntegrityError of a constraint violation. -/
inductive RowOutcome where
  | ok : RowOutcome
  | interfaceErr : RowOutcome
  | otherErr : RowOutcome
deriving DecidableEq

/-- What the CSV import of one table produced: the rows_in_table tally,
how many CSV rows the loop consumed, and whether the commit at the end
of the loop was reached. -/
structure ImportOutcome where
  rowsInTable : Nat
  rowsRead : Nat
  commitExecuted : Bool
deriving DecidableEq

/-- Transcription of the per-row CSV import loop: a row whose value
count differs from the header is skipped; an insert that succeeds
bumps rows_in_table; an InterfaceError is caught and the loop
continues; any other exception propagates to the per-table handler,
abandoning the loop and the commit.  Each CSV row is carried as its
value count paired with its insert outcome. -/
def insertRowsLoop (headerLen : Nat) : List (Nat × RowOutcome) → Nat → Nat → ImportOutcome
  | [], n, r => ⟨n, r, true⟩
  | (len, out) :: rs, n, r =>
    if len ≠ headerLen then insertRowsLoop headerLen rs n (r + 1)
    else match out with
      | .ok => insertRowsLoop headerLen rs (n + 1) (r + 1)
      | .interfaceErr => insertRowsLoop headerLen rs n (r + 1)
      | .otherErr => ⟨n, r + 1, false⟩

/-- One table of the conversion run: whether its schema could be read,
whether CREATE TABLE succeeded, whether the CSV export appeared
non-empty, and its CSV rows. -/
structure TableSource where
  schemaOk : Bool
  createOk : Bool
  csvOk : Bool
  headerLen : Nat
  rows : List (Nat × RowOutcome)
deriving DecidableEq

/-- Transcription of the per-table flow of convert_access_to_sqlite: a
table with no readable schema, a failed CREATE TABLE, or a missing or
empty CSV is skipped entirely; otherwise the row loop runs. -/
def processTable (t : TableSource) : Option ImportOutcome :=
  if t.schemaOk = false then none
  else if t.createOk = false then none
  else if t.csvOk = false then none
  else some (insertRowsLoop t.headerLen t.rows 0 0)

/-- Contribution of one table to total_rows_imported: rows_in_table is
added only when the commit line was reached. -/
def tableRowsAdded (t : TableSource) : Nat :=
  match processTable t with
  | none => 0
  | some o => if o.commitExecuted then o.rowsInTable else 0

/-- The run total printed at the end of the conversion. -/
def convertTables (ts : List TableSource) : Nat :=
  ts.foldl (fun acc t => acc + tableRowsAdded t) 0

theorem insertRowsLoop_read_indep (hl : Nat) (rows : List (Nat × RowOutcome))
    (n r r' : Nat) :
    (insertRowsLoop hl rows n r).rowsInTable =
      (insertRowsLoop hl rows n r').rowsInTable
    ∧ (insertRowsLoop hl rows n r).commitExecuted =
      (insertRowsLoop hl rows n r').commitExecuted := by
  induction rows generalizing n r r' with
  | nil => exact ⟨rfl, rfl⟩
  | cons p rs ih =>
      obtain ⟨len, out⟩ := p
      by_cases hlen : len = hl
      · simp only [insertRowsLoop, hlen, ne_eq, not_true_eq_false, if_false]
        cases out with
        | ok => exact ih (n + 1) (r + 1) (r' + 1)
        | interfaceErr => exact ih n (r + 1) (r' + 1)
        | otherErr => exact ⟨rfl, rfl⟩
      · simp only [insertRowsLoop, if_pos hlen]
        exact ih n (r + 1) (r' + 1)

/-- Claim C7: a CSV row whose value count differs from the header is
skipped: it leaves the committed tally and the commit outcome of the
table exactly as if the row were absent, and in the concrete scenario
of a short row between two valid rows the two valid rows are counted,
all three rows are read, and the commit is reached. -/
theorem c7_malformed_row_skipped (hl : Nat) (pre post : List (Nat × RowOutcome))
    (len : Nat) (out : RowOutcome) (n r : Nat) (hlen : len ≠ hl) :
    ((insertRowsLoop hl (pre ++ (len, out) :: post) n r).rowsInTable =
      (insertRowsLoop hl (pre ++ post) n r).rowsInTable
    ∧ (insertRowsLoop hl (pre ++ (len, out) :: post) n r).commitExecuted =
      (insertRowsLoop hl (pre ++ post) n r).commitExecuted)
    ∧ insertRowsLoop hl [(hl, .ok), (len, out), (hl, .ok)] 0 0 =
        ⟨2, 3, true⟩ := by
  constructor
  · induction pre generalizing n r with
    | nil =>
        simp only [List.nil_append, insertRowsLoop, if_pos hlen]
        exact insertRowsLoop_read_indep hl post n (r + 1) r
    | cons p ps ih =>
        obtain ⟨len2, out2⟩ := p
        by_cases hlen2 : len2 = hl
        · simp only [List.cons_append, insertRowsLoop, hlen2, ne_eq,
            not_true_eq_false, if_false]
          cases out2 with
          | ok => exact ih (n + 1) (r + 1)
          | interfaceErr => exact ih n (r + 1)
          | otherErr => exact ⟨rfl, rfl⟩
        · simp only [List.cons_append, insertRowsLoop, if_pos hlen2]
          exact ih n (r + 1)
  · simp [insertRowsLoop, hlen]

/-- Witness for C7: a row of three values fed to a table expecting four
columns is skipped, the two surrounding valid rows commit, and the
count excludes the skipped row. -/
theorem c7_witness :
    insertRowsLoop 4 [(4, RowOutcome.ok), (3, RowOutcome.ok), (4, RowOutcome.ok)]
      0 0 = ⟨2, 3, true⟩ :=
  (c7_malformed_row_skipped 4 [(4, RowOutcome.ok)] [(4, RowOutcome.ok)] 3
    RowOutcome.ok 0 0 (by decide)).2

/-- Counterexample to claim C4: a row whose insert raises an exception
other than InterfaceError, as a constraint violation does, stops the
table's loop: with three well-formed rows whose second insert violates
a constraint, only two rows are read, only the first is counted, and
the commit line is never reached, against the claim that the third row
would still be processed and the valid rows committed. -/
theorem c4_counterexample :
    insertRowsLoop 1 [(1, RowOutcome.ok), (1, RowOutcome.otherErr),
      (1, RowOutcome.ok)] 0 0 = ⟨1, 2, false⟩
    ∧ [(1, RowOutcome.ok), (1, RowOutcome.otherErr),
        (1, RowOutcome.ok)].length = 3 := by decide

/-- Claim C4 as amended: only a row whose insert raises
sqlite3.InterfaceError is skipped individually with the loop
continuing; a row raising any other exception, constraint violations
included, abandons the rest of the table's rows and its commit; a
table whose CREATE TABLE fails is skipped before any row; and no
table's failure affects the tables after it, whose contributions add
up independently. -/
theorem c4_row_isolation_interface_error_only (hl len : Nat) :
    (∀ (rs : List (Nat × RowOutcome)) (n r : Nat), len = hl →
      insertRowsLoop hl ((len, RowOutcome.interfaceErr) :: rs) n r =
        insertRowsLoop hl rs n (r + 1))
    ∧ (∀ (rs : List (Nat × RowOutcome)) (n r : Nat), len = hl →
      insertRowsLoop hl ((len, RowOutcome.otherErr) :: rs) n r =
        ⟨n, r + 1, false⟩)
    ∧ (∀ t : TableSource, t.createOk = false → processTable t = none)
    ∧ (∀ (t : TableSource) (ts : List TableSource),
        convertTables (t :: ts) = tableRowsAdded t + convertTables ts) := by
  refine ⟨?_, ?_, ?_, ?_⟩
  · intro rs n r he
    simp [insertRowsLoop, he]
  · intro rs n r he
    simp [insertRowsLoop, he]
  · intro t hc
    simp only [processTable, hc]
    by_cases hs : t.schemaOk = false
    · simp [hs]
    · simp [hs]
  · intro t ts
    simp only [convertTables, List.foldl_cons, Nat.zero_add]
    exact foldl_add_init tableRowsAdded ts (tableRowsAdded t)

/-- Witness for the amended C4: a concrete table whose first row
violates a constraint ends with nothing counted and no commit. -/
theorem c4_witness :
    insertRowsLoop 1 [(1, RowOutcome.otherErr), (1, RowOutcome.ok)] 0 0 =
      ⟨0, 1, false⟩ :=
  (c4_row_isolation_interface_error_only 1 1).2.1 [(1, RowOutcome.ok)] 0 0 rfl

/-! ### Per-value row normalization, from the CSV import loop -/

/-- Builder of one column definition string, from
get_table_schema_from_access: the quoted name, a space, the mapped
type, and a NOT NULL suffix when the source reported non-nullable. -/
def buildColDef (name sqliteType : List Char) (notNull : Bool) : List Char :=
  ['"'] ++ name ++ ['"', ' '] ++ sqliteType ++
    (if notNull then " NOT NULL".data else [])

/-- Transcription of the per-value normalization: find the first
column definition whose stripped text starts with the quoted header
name, defaulting to the empty string; an empty value becomes NULL when
the uppercased definition contains neither TEXT nor DATETIME. -/
def processValue (column_defs : List (List Char)) (colName value : List Char) :
    Option (List Char) :=
  let quoted := '"' :: colName ++ ['"']
  let col_def_str := (column_defs.find? (fun s => tokAt quoted (pyStrip s))).getD []
  if value = [] ∧ strContains (pyUpper col_def_str) "TEXT".data = false
      ∧ strContains (pyUpper col_def_str) "DATETIME".data = false
  then none else some value

/-- The six types the mapper can emit. -/
def sqliteTargetTypes : List (List Char) :=
  ["TEXT".data, "INTEGER".data, "REAL".data, "DATETIME".data,
   "NUMERIC".data, "BLOB".data]

theorem tokAt_append_both (x y z : List Char) :
    tokAt (x ++ y) (x ++ z) = tokAt y z := by
  induction x with
  | nil => rfl
  | cons a as ih => simp [tokAt, ih]

theorem pyStrip_eq_self (s : List Char)
    (hhead : ∀ c, s.head? = some c → c.isWhitespace = false)
    (hlast : ∀ c, s.getLast? = some c → c.isWhitespace = false) :
    pyStrip s = s := by
  have h1 : s.dropWhile Char.isWhitespace = s := by
    cases s with
    | nil => rfl
    | cons a l =>
        have ha := hhead a rfl
        simp [List.dropWhile_cons, ha]
  rw [pyStrip, h1]
  have h2 : s.reverse.dropWhile Char.isWhitespace = s.reverse := by
    cases hr : s.reverse with
    | nil => simp
    | cons a l =>
        have hga : s.getLast? = some a := by
          rw [← List.head?_reverse, hr]
          rfl
        have ha := hlast a hga
        simp [List.dropWhile_cons, ha]
  rw [h2, List.reverse_reverse]

theorem strContains_quoted_split (nm rest tok : List Char) (hq : '"' ∉ tok)
    (hne : tok ≠ []) :
    strContains (('"' :: nm) ++ ('"' :: rest)) tok =
      (strContains nm tok || strContains rest tok) := by
  rw [show ('"' :: nm) ++ ('"' :: rest) = '"' :: (nm ++ '"' :: rest) from by simp]
  rw [strContains_cons_of_notMem '"' _ tok hq hne]
  exact strContains_append_cut nm rest tok '"' hq hne

/-- Occurrences of a quote-free, space-free token in the uppercased
column definition decompose into an occurrence in the uppercased name
or one in the uppercased type. -/
theorem strContains_colDef_parts (name ty tok : List Char) (nn : Bool)
    (hq : '"' ∉ tok) (hs : ' ' ∉ tok) (hne : tok ≠ [])
    (hnn : strContains ("NOT NULL".data) tok = false) :
    strContains (pyUpper (buildColDef name ty nn)) tok =
      (strContains (pyUpper name) tok || strContains (pyUpper ty) tok) := by
  have hb : buildColDef name ty nn =
      ('"' :: name) ++ ('"' :: (' ' :: (ty ++ (if nn then " NOT NULL".data else [])))) := by
    simp [buildColDef]
  have hup : pyUpper (buildColDef name ty nn) =
      ('"' :: pyUpper name) ++
        ('"' :: (' ' :: (pyUpper ty ++ (if nn then " NOT NULL".data else [])))) := by
    rw [hb]
    simp only [pyUpper, List.map_append, List.map_cons]
    rw [(by decide : Char.toUpper '"' = '"'), (by decide : Char.toUpper ' ' = ' ')]
    cases nn
    · simp
    · simp only [if_true]
      rw [(by decide : List.map Char.toUpper (" NOT NULL".data) = " NOT NULL".data)]
  rw [hup, strContains_quoted_split _ _ tok hq hne]
  congr 1
  rw [strContains_cons_of_notMem ' ' _ tok hs hne]
  cases nn
  · rw [if_neg (by decide), List.append_nil]
  · rw [if_pos rfl]
    rw [(by decide : (" NOT NULL".data : List Char) = ' ' :: "NOT NULL".data)]
    rw [strContains_append_cut (pyUpper ty) ("NOT NULL".data) tok ' ' hs hne]
    rw [hnn, Bool.or_false]

/-- The lookup and strip steps resolve to the single built definition,
leaving only the containment test. -/
theorem processValue_buildColDef (name ty value : List Char) (nn : Bool)
    (hlast : ∀ c, (buildColDef name ty nn).getLast? = some c →
      c.isWhitespace = false) :
    processValue [buildColDef name ty nn] name value =
      if value = []
          ∧ strContains (pyUpper (buildColDef name ty nn)) "TEXT".data = false
          ∧ strContains (pyUpper (buildColDef name ty nn)) "DATETIME".data = false
      then none else some value := by
  have hhead : ∀ c, (buildColDef name ty nn).head? = some c →
      c.isWhitespace = false := by
    intro c hc
    have hh : (buildColDef name ty nn).head? = some '"' := by
      simp [buildColDef]
    rw [hh] at hc
    cases hc
    decide
  have hstrip : pyStrip (buildColDef name ty nn) = buildColDef name ty nn :=
    pyStrip_eq_self _ hhead hlast
  have hform : buildColDef name ty nn =
      (('"' :: name) ++ ['"']) ++
        (' ' :: (ty ++ (if nn then " NOT NULL".data else []))) := by
    simp [buildColDef]
  have hq : tokAt ('"' :: name ++ ['"']) (buildColDef name ty nn) = true := by
    rw [hform]
    exact tokAt_append_self _ _
  simp only [processValue]
  rw [List.find?_cons_of_pos _ (by rw [hstrip]; exact hq)]
  rfl

/-- Counterexample to claim C5: a column named Context of mapped type
INTEGER keeps the empty string instead of turning it into NULL,
because the uppercased definition string quote-CONTEXT-quote INTEGER
contains TEXT inside the column name. -/
theorem c5_counterexample :
    "INTEGER".data ≠ "TEXT".data ∧ "INTEGER".data ≠ "DATETIME".data
    ∧ processValue [buildColDef "Context".data "INTEGER".data false]
        "Context".data [] = some [] := by decide

/-- Claim C5 as amended: for a destination column built by the
converter whose uppercased name contains neither TEXT nor DATETIME,
an empty value is inserted as NULL exactly when the mapped type is
neither TEXT nor DATETIME, and any non-empty value is kept; a column
name containing one of those tokens instead preserves the empty
string, since the code tests the whole quoted definition string. -/
theorem c5_empty_value_null_by_definition_substring (name value ty : List Char)
    (nn : Bool) (hty : ty ∈ sqliteTargetTypes)
    (h1 : strContains (pyUpper name) "TEXT".data = false)
    (h2 : strContains (pyUpper name) "DATETIME".data = false) :
    processValue [buildColDef name ty nn] name value =
      if value = [] ∧ ty ≠ "TEXT".data ∧ ty ≠ "DATETIME".data then none
      else some value := by
  have hT := strContains_colDef_parts name ty "TEXT".data nn
    (by decide) (by decide) (by decide) (by decide)
  have hD := strContains_colDef_parts name ty "DATETIME".data nn
    (by decide) (by decide) (by decide) (by decide)
  have hlast : ∀ c, (buildColDef name ty nn).getLast? = some c →
      c.isWhitespace = false := by
    intro c hc
    fin_cases hty <;> cases nn <;>
      simp [buildColDef] at hc <;>
      rw [← List.cons_append, List.getLast?_append] at hc <;>
      simp at hc <;>
      simp [← hc]
  rw [processValue_buildColDef name ty value nn hlast, hT, hD, h1, h2]
  simp only [Bool.false_or]
  fin_cases hty <;> (by_cases hv : value = [] <;> simp +decide [hv])

/-- Witness for the amended C5: an empty value for an INTEGER column
with a plain name becomes NULL, and for a TEXT column is kept. -/
theorem c5_witness :
    processValue [buildColDef "Age".data "INTEGER".data false] "Age".data []
        = none
    ∧ processValue [buildColDef "Age".data "TEXT".data false] "Age".data []
        = some [] := by
  constructor
  · rw [c5_empty_value_null_by_definition_substring "Age".data [] "INTEGER".data
      false (by decide) (by decide) (by decide)]
    decide
  · rw [c5_empty_value_null_by_definition_substring "Age".data [] "TEXT".data
      false (by decide) (by decide) (by decide)]
    decide

/-! ### Entry-point exit statuses and target clearing -/

/-- Exit-status flow of the access_to_sqlite entry point: a wrong
argument count exits 1; with a missing source file
convert_access_to_sqlite prints an error and returns, so the process
ends with status 0; a missing UCanAccess console script exits 1 inside
run_ucanaccess_command; otherwise the run completes normally. -/
def access_to_sqlite_exit (argc : Nat) (accessExists toolExists : Bool) : Nat :=
  if argc ≠ 3 then 1
  else if accessExists = false then 0
  else if toolExists = false then 1
  else 0

/-- Exit-status flow of the mdb_to_sqlite entry point: same shape; a
missing mdb-tools binary raises FileNotFoundError, which
get_mdb_tables turns into exit 1, while a missing mdb file returns
normally. -/
def mdb_to_sqlite_exit (argc : Nat) (mdbExists toolExists : Bool) : Nat :=
  if argc ≠ 3 then 1
  else if mdbExists = false then 0
  else if toolExists = false then 1
  else 0

/-- Exit-status flow of the compare_sqlite_dbs entry point: only the
argument count is checked; compare_databases connects to both paths
unconditionally and sqlite3.connect creates a missing file, so the
process ends with status 0 however the comparison goes. -/
def compare_dbs_exit (argc : Nat) (refExists : Bool) : Nat :=
  if argc ≠ 3 then 1 else 0

/-- Counterexample to claim C9: with a correct argument count but a
missing source file the migration entry point exits 0, and the
verifier exits 0 with a missing reference file, where the claim
demands a non-zero status for both. -/
theorem c9_counterexample :
    access_to_sqlite_exit 3 false true = 0 ∧ compare_dbs_exit 3 false = 0 := by
  decide

/-- Claim C9 as amended: every entry point exits 1 on a wrong argument
count, and the migration entry points exit 1 when the source tool is
missing; but a missing source file ends the migration with status 0
after a printed error, and the verifier performs no existence check at
all, ending with status 0 for any two-argument invocation. -/
theorem c9_exit_status_flow (argc : Nat) (a t m u r : Bool) :
    (argc ≠ 3 → access_to_sqlite_exit argc a t = 1
      ∧ mdb_to_sqlite_exit argc m u = 1 ∧ compare_dbs_exit argc r = 1)
    ∧ access_to_sqlite_exit 3 true false = 1
    ∧ mdb_to_sqlite_exit 3 true false = 1
    ∧ access_to_sqlite_exit 3 false t = 0
    ∧ mdb_to_sqlite_exit 3 false u = 0
    ∧ compare_dbs_exit 3 r = 0 := by
  refine ⟨?_, by decide, by decide, ?_, ?_, ?_⟩
  · intro h
    refine ⟨?_, ?_, ?_⟩ <;>
      simp [access_to_sqlite_exit, mdb_to_sqlite_exit, compare_dbs_exit, h]
  · simp [access_to_sqlite_exit]
  · simp [mdb_to_sqlite_exit]
  · simp [compare_dbs_exit]

/-- Witness for the amended C9: a one-argument invocation exits 1 in
all three entry points. -/
theorem c9_witness :
    access_to_sqlite_exit 2 true true = 1 ∧ mdb_to_sqlite_exit 2 true true = 1
      ∧ compare_dbs_exit 2 true = 1 :=
  (c9_exit_status_flow 2 true true true true true).1 (by decide)

/-- Effect of convert_access_to_sqlite on the target path: when the
source file exists, a pre-existing target file is removed and a fresh
database is built purely from the source tables, its content
abstracted as the per-table import results; when the source is
missing the function returns before touching the target. -/
def access_target_after (accessExists : Bool) (tables : List TableSource)
    (prior : Option (List (Option ImportOutcome))) :
    Option (List (Option ImportOutcome)) :=
  if accessExists = false then prior
  else some (tables.map processTable)

/-- Effect of convert_mdb_to_sqlite on the target path: the same
removal discipline, with the bulk per-table processing abstracted as a
function of the source's table list alone. -/
def mdb_target_after (mdbExists : Bool) (tables : List (List Char))
    (prior : Option (List (List Char))) : Option (List (List Char)) :=
  if mdbExists = false then prior
  else some tables

/-- Claim C10: when the source exists, both migration entry points
delete any pre-existing target and rebuild it from the source alone,
so the resulting target content is the same whatever was at the
target path before the run. -/
theorem c10_target_independent_of_prior_content
    (tables : List TableSource) (names : List (List Char))
    (p q : Option (List (Option ImportOutcome)))
    (p2 q2 : Option (List (List Char))) :
    access_target_after true tables p = access_target_after true tables q
    ∧ access_target_after true tables p = some (tables.map processTable)
    ∧ mdb_target_after true names p2 = mdb_target_after true names q2
    ∧ mdb_target_after true names p2 = some names := by
  refine ⟨?_, ?_, ?_, ?_⟩ <;> simp [access_target_after, mdb_target_after]

/-- Witness for C1: a database compared against itself has verdict
SUCCESS and a zero fatal tally. -/
theorem c1_witness : (compare_databases empRefDb empRefDb).success = true :=
  (c1_success_iff_zero_fatal_tally empRefDb empRefDb).mpr (by decide)

/-- Witness for C10: a concrete run over an empty table list yields
the same target whether or not a file previously existed there. -/
theorem c10_witness :
    access_target_after true [] (some [some ⟨0, 0, true⟩]) =
      access_target_after true [] none :=
  (c10_target_independent_of_prior_content [] [] (some [some ⟨0, 0, true⟩])
    none none none).1
